import Mathlib

/-!
Verification development for the mega repository (libra clone command,
jupiter batch persistence, saturn authorization, common result model).

Each Rust source function relevant to the checked properties is embedded
as an executable Lean definition; effects (filesystem, database, panics)
are made explicit as data passed in and out.
-/

set_option maxRecDepth 4096

/- ===================  common/src/model.rs  =================== -/

/-- Embedding of `CommonResult<T>` from `common/src/model.rs`. -/
structure CommonResult (T : Type) where
  req_result : Bool
  data : Option T
  err_message : String
deriving Repr, DecidableEq

/-- Embedding of `CommonResult::success` (`common/src/model.rs`, lines 39-45). -/
def CommonResult.success {T : Type} (data : Option T) : CommonResult T :=
  { req_result := true, data := data, err_message := "" }

/-- Embedding of `CommonResult::failed` (`common/src/model.rs`, lines 46-52). -/
def CommonResult.failed {T : Type} (err_message : String) : CommonResult T :=
  { req_result := false, data := none, err_message := err_message }

/-- A `CommonResult` value produced by one of the two constructors. -/
def CommonResult.fromConstructor {T : Type} (r : CommonResult T) : Prop :=
  (∃ d, r = CommonResult.success d) ∨ (∃ m, r = CommonResult.failed m)

/- ===================  jupiter/src/storage/mod.rs  =================== -/

/-- Embedding of Rust `slice::chunks(n)`: splits a list into consecutive
chunks of size `n` (the last one may be shorter). Matches the iteration
of `save_models.chunks(1000)` in `batch_save_model_with_conflict`. -/
def chunksOf (n : Nat) (l : List α) : List (List α) :=
  match l with
  | [] => []
  | x :: xs => (x :: xs.take (n - 1)) :: chunksOf n (xs.drop (n - 1))
termination_by l.length
decreasing_by
  simp only [List.length_drop, List.length_cons]
  omega

/-- Database-side error of one `insert_many(..).exec(..)` future. -/
structure DbErr where
  msg : String
deriving Repr, DecidableEq

/-- Embedding of `common::errors::MegaError` as far as these claims need it. -/
structure MegaError where
  msg : String
deriving Repr, DecidableEq

/-- Embedding of the sea-orm `OnConflict` policy values used in
`jupiter/src/storage/mod.rs`: `batch_save_model` passes
`OnConflict::new().do_nothing()`. -/
inductive OnConflict where
  | doNothing
  | updateAll
deriving Repr, DecidableEq

/-- Embedding of `batch_save_model_with_conflict`
(`jupiter/src/storage/mod.rs`, lines 53-72). The database engine is the
parameter `exec`: one call per chunk, giving that chunk's insert outcome.
Faithful to the source: the per-chunk outcomes are collected into
`results`, `join_all(results)` is awaited, its output is dropped, and the
function returns `Ok(())` unconditionally. -/
def batch_save_model_with_conflict {M : Type}
    (exec : OnConflict → List M → Except DbErr Unit)
    (save_models : List M) (onconflict : OnConflict) : Except MegaError Unit :=
  let results := (chunksOf 1000 save_models).map (exec onconflict)
  let _joined := results
  Except.ok ()

/-- Embedding of `batch_save_model` (`jupiter/src/storage/mod.rs`,
lines 37-51): delegates to `batch_save_model_with_conflict` with the
`do_nothing` conflict policy. -/
def batch_save_model {M : Type}
    (exec : OnConflict → List M → Except DbErr Unit)
    (save_models : List M) : Except MegaError Unit :=
  batch_save_model_with_conflict exec save_models OnConflict.doNothing

/-- The all-failing database engine: every chunk insert reports an error. -/
def failingExec : OnConflict → List Nat → Except DbErr Unit :=
  fun _ _ => Except.error { msg := "insert failed" }

/-- Whether the table already holds a row with the given key (the
uniqueness/conflict check of the underlying relational engine). -/
def hasKey {M K : Type} [DecidableEq K] (key : M → K) (s : List M) (k : K) : Bool :=
  s.any (fun r => decide (key r = k))

/-- State semantics of one `insert_many(chunk).on_conflict(do_nothing)`
against a table keyed by `key`: rows are processed in order and a row
whose key already exists in the table (or appeared earlier in the batch)
is skipped, not an error. -/
def insert_many_do_nothing {M K : Type} [DecidableEq K] (key : M → K)
    (store chunk : List M) : List M :=
  chunk.foldl (fun s m => if hasKey key s (key m) then s else s ++ [m]) store

/-- State semantics of `batch_save_model` with the `do_nothing` conflict
policy: the chunks of `save_models` are inserted in order into the table. -/
def batch_save_state {M K : Type} [DecidableEq K] (key : M → K)
    (store save_models : List M) : List M :=
  (chunksOf 1000 save_models).foldl (insert_many_do_nothing key) store

/- ===================  saturn/src/context.rs  =================== -/

/-- Embedding of `cedar_policy::Decision`. -/
inductive Decision where
  | Allow
  | Deny
deriving Repr, DecidableEq

/-- Embedding of `cedar_policy::Diagnostics` as far as the claims need it:
the reasons and errors attached to a decision. -/
structure Diagnostics where
  reasons : List String
  errors : List String
deriving Repr, DecidableEq

/-- Embedding of the `cedar_policy::Response` consumed by `is_authorized`. -/
structure Response where
  decision : Decision
  diagnostics : Diagnostics
deriving Repr, DecidableEq

/-- Embedding of `saturn::context::Error` (`saturn/src/context.rs`,
lines 37-43): `AuthDenied(Diagnostics)` or `Request(String)`. -/
inductive AuthError where
  | AuthDenied (d : Diagnostics)
  | Request (msg : String)
deriving Repr, DecidableEq

/-- An authorization request as assembled by `Request::new` from
principal, action, resource and context (entity uids kept abstract
as strings). -/
structure CedarRequest where
  principal : String
  action : String
  resource : String
  context : String
deriving Repr, DecidableEq

/-- Embedding of `AppContext::is_authorized` (`saturn/src/context.rs`,
lines 83-111). `buildRequest` is the outcome of `Request::new` (which can
fail, line 98 maps its error to `Error::Request`); `authorize` is the
cedar authorizer applied to the request, policies and entities. On a
built request the decision is matched: `Allow` yields `Ok(())`, `Deny`
yields `Err(Error::AuthDenied(diagnostics))`. -/
def is_authorized (buildRequest : Except String CedarRequest)
    (authorize : CedarRequest → Response) : Except AuthError Unit :=
  match buildRequest with
  | Except.error e => Except.error (AuthError.Request e)
  | Except.ok q =>
    match (authorize q).decision with
    | Decision.Allow => Except.ok ()
    | Decision.Deny => Except.error (AuthError.AuthDenied (authorize q).diagnostics)

/-- A cedar authorizer that allows every request (no policy denies). -/
def allowAllAuthorizer : CedarRequest → Response :=
  fun _ => { decision := Decision.Allow, diagnostics := { reasons := [], errors := [] } }

/-- A concrete request value. -/
def sampleRequest : CedarRequest :=
  { principal := "User::alice", action := "Action::view", resource := "File::93",
    context := "" }

/- ===================  libra/src/command/clone.rs  =================== -/

/-- Embedding of `Head` (`libra/src/internal/head.rs`, used by clone):
HEAD is either attached to a branch name or detached at a commit oid. -/
inductive Head where
  | Branch (name : String)
  | Detached (oid : String)
deriving Repr, DecidableEq

/-- One config entry as written by `Config::insert(section, subsection,
key, value)`. URL-valued entries keep the Rust `String` as a character
list so that `ends_with('/')` / `push('/')` are modelled exactly. -/
structure ConfigEntry where
  sect : String
  subsection : Option String
  key : String
  value : List Char
deriving Repr, DecidableEq

/-- Local repository state visible to `clone`: local branches
(name, commit oid), remote-tracking branches under `origin`
(name, commit oid), HEAD, config entries, and the working tree
(the commit oid whose tree has been materialized, `none` if empty). -/
structure RepoState where
  branches : List (String × String)
  remoteBranches : List (String × String)
  head : Head
  config : List ConfigEntry
  worktree : Option String
deriving Repr, DecidableEq

/-- Modelled from the spec: `command::init::execute` (not under src/).
"A Repository is created once (init or clone)"; a fresh non-bare
repository has no branches, HEAD Attached to the default branch name
`master` (which does not yet resolve: unborn), no config, empty
working tree. Clone calls it with `initial_branch: None`. -/
def initRepo : RepoState :=
  { branches := [], remoteBranches := [], head := Head.Branch "master",
    config := [], worktree := none }

/-- Modelled from the spec: result of `fetch::fetch_repository` plus
`Head::remote_current(ORIGIN)` (not under src/): the remote-tracking
branches written under `origin` and the remote HEAD advertisement
(`none` when the remote advertises zero refs, i.e. an empty repository). -/
structure FetchData where
  remoteHead : Option Head
  remoteBranches : List (String × String)
deriving Repr, DecidableEq

/-- Modelled from the spec: `Branch::find_branch(name, Some("origin"))`
(not under src/) looks up the remote-tracking branch of that name and
yields its tip commit oid when present. -/
def find_branch (remoteBranches : List (String × String)) (name : String) :
    Option String :=
  (remoteBranches.find? (fun p => decide (p.1 = name))).map (fun p => p.2)

/-- Modelled from the spec: `Config::insert` (not under src/) records a
`section[.subsection].key = value` entry in the hierarchical config. -/
def config_insert (cfg : List ConfigEntry) (sect : String)
    (subsection : Option String) (key : String) (value : List Char) :
    List ConfigEntry :=
  cfg ++ [{ sect := sect, subsection := subsection, key := key, value := value }]

/-- Modelled from the spec: `Branch::update_branch(name, commit, None)`
(not under src/) creates or moves the local branch to the given commit. -/
def update_branch (branches : List (String × String)) (name commit : String) :
    List (String × String) :=
  branches.filter (fun p => decide (p.1 ≠ name)) ++ [(name, commit)]

/-- Embedding of `setup` (`libra/src/command/clone.rs`, lines 90-141),
run on the repository state left by init + fetch. An `Except.error`
models the panic of `.expect("origin HEAD branch not found")`; the
returned list collects the messages the arm prints. The `Branch` arm
updates the local branch to the origin tip, attaches HEAD, writes the
remote/branch config, and restores the working tree from HEAD (modelled
from the spec: `command::restore::execute` materializes the resolved
commit tree, not under src/). The `Detached` arm only prints a fatal
message. The `None` arm prints the empty-repository warning and writes
config for the default branch `master`. -/
def setup (remote_repo : List Char) (remote_head : Option Head)
    (st : RepoState) : Except String (RepoState × List String) :=
  match remote_head with
  | some (Head.Branch name) =>
    match find_branch st.remoteBranches name with
    | none => Except.error "origin HEAD branch not found"
    | some commit =>
      let st1 := { st with branches := update_branch st.branches name commit }
      let st2 := { st1 with head := Head.Branch name }
      let c3 := config_insert st2.config "remote" (some "origin") "url" remote_repo
      let c4 := config_insert c3 "branch" (some name) "merge"
        ("refs/heads/" ++ name).toList
      let c5 := config_insert c4 "branch" (some name) "remote" "origin".toList
      let st6 := { st2 with config := c5, worktree := some commit }
      Except.ok (st6, [])
  | some (Head.Detached _) =>
    Except.ok (st, ["fatal: remote HEAD points to a detached commit"])
  | none =>
    let c1 := config_insert st.config "remote" (some "origin") "url" remote_repo
    let c2 := config_insert c1 "branch" (some "master") "merge"
      "refs/heads/master".toList
    let c3 := config_insert c2 "branch" (some "master") "remote" "origin".toList
    let st3 := { st with config := c3 }
    Except.ok (st3, ["warning: You appear to have cloned an empty repository."])

/-- State of the destination path before `clone` runs: absent, an
existing empty directory, or an existing non-empty directory. -/
inductive DestState where
  | absent
  | emptyDir
  | nonEmptyDir
deriving Repr, DecidableEq

/-- Outcome of the clone body between guard installation and `setup`:
`init` + `fetch_repository` either unwind (a panic anywhere in them) or
complete, delivering the fetched data. -/
inductive BodyOutcome where
  | panics
  | completes (d : FetchData)
deriving Repr, DecidableEq

/-- Final state of the destination directory after `execute` returns:
left untouched (pre-existing non-empty), never created (creation
failed), created but left behind by an unwind in the window before the
`defer!` guard is installed, removed by the guard, or kept with a
repository inside. -/
inductive FinalDir where
  | untouchedNonEmpty
  | notCreated
  | createdNotRemoved
  | removed
  | present (repo : RepoState)
deriving Repr, DecidableEq

/-- Observable result of one `clone` invocation: the destination
directory afterwards and the messages printed, in order. -/
structure CloneResult where
  dir : FinalDir
  messages : List String
deriving Repr, DecidableEq

/-- Embedding of lines 29-33 of `libra/src/command/clone.rs`: the remote
url gets a trailing slash pushed when `ends_with('/')` is false. -/
def normalizeRemoteUrl (remote_repo : List Char) : List Char :=
  if remote_repo.getLast? = some '/' then remote_repo else remote_repo ++ ['/']

/-- Embedding of `execute` (`libra/src/command/clone.rs`, lines 28-88).
Inputs: the user-supplied remote url; the prior state of the destination
path; whether `fs::create_dir_all` fails; whether the statements between
directory creation and guard installation unwind; the body outcome
(init+fetch). Control flow follows the source: an existing non-empty
destination or a failed directory creation return early with a fatal
message, before anything is created or the guard exists. After
`create_dir_all` succeeds (line 51) the source runs
`local_path.file_name().unwrap().to_str().unwrap()` (line 59, panics
when the destination argument ends in `..`) and
`println!("Cloning into ..")` (line 60, panics on a closed stdout)
BEFORE `defer!` installs the guard (lines 63-70): an unwind there
(`preGuardPanics`) leaves the freshly created directory in place,
unremoved. Once the guard is armed, a body panic or a `setup` panic
fires it (`remove_dir_all` + red fatal message) because `is_success` is
still false; a normal return from `setup` sets `is_success` to true,
disarming the guard, so the directory stays. -/
def cloneExecute (remote_repo : List Char) (dest : DestState)
    (createDirFails : Bool) (preGuardPanics : Bool) (body : BodyOutcome) :
    CloneResult :=
  let remote_repo := normalizeRemoteUrl remote_repo
  if dest = DestState.nonEmptyDir then
    { dir := FinalDir.untouchedNonEmpty,
      messages :=
        ["fatal: destination path already exists and is not an empty directory."] }
  else if createDirFails then
    { dir := FinalDir.notCreated,
      messages := ["fatal: could not create directory"] }
  else if preGuardPanics then
    { dir := FinalDir.createdNotRemoved, messages := [] }
  else
    let intro := ["Cloning into"]
    match body with
    | BodyOutcome.panics =>
      { dir := FinalDir.removed,
        messages :=
          intro ++ ["fatal: clone failed, delete repo directory automatically"] }
    | BodyOutcome.completes d =>
      let st := { initRepo with remoteBranches := d.remoteBranches }
      match setup remote_repo d.remoteHead st with
      | Except.error _ =>
        { dir := FinalDir.removed,
          messages :=
            intro ++ ["fatal: clone failed, delete repo directory automatically"] }
      | Except.ok (repo, msgs) =>
        { dir := FinalDir.present repo, messages := intro ++ msgs }

/-- Whether one clone attempt fails after the destination directory has
been created: the body unwinds, or `setup` panics looking up the origin
HEAD branch. -/
def cloneAttemptFails (remote_repo : List Char) (body : BodyOutcome) : Bool :=
  match body with
  | BodyOutcome.panics => true
  | BodyOutcome.completes d =>
    let st := { initRepo with remoteBranches := d.remoteBranches }
    match setup (normalizeRemoteUrl remote_repo) d.remoteHead st with
    | Except.error _ => true
    | Except.ok _ => false

/-- Whether HEAD resolves to a commit: an attached HEAD resolves through
the local branch of that name (unborn when no such branch exists); a
detached HEAD carries its commit directly. -/
def headResolves (st : RepoState) : Bool :=
  match st.head with
  | Head.Branch name => (find_branch st.branches name).isSome
  | Head.Detached _ => true

/-- The `remote.origin.url` config entry written by a clone of
`http://x/r` from an empty remote: the stored url carries the appended
trailing slash. -/
def sampleUrlEntry : ConfigEntry :=
  { sect := "remote", subsection := some "origin", key := "url",
    value := "http://x/r/".toList }

/-- The repository produced by cloning the empty remote `http://x/r`
into a fresh directory. -/
def sampleCloneRepo : RepoState :=
  { branches := [], remoteBranches := [], head := Head.Branch "master",
    config :=
      [sampleUrlEntry,
       { sect := "branch", subsection := some "master", key := "merge",
         value := "refs/heads/master".toList },
       { sect := "branch", subsection := some "master", key := "remote",
         value := "origin".toList }],
    worktree := none }

/- ===================  Helper lemmas  =================== -/

theorem chunksOf_nil (n : Nat) : chunksOf n ([] : List α) = [] := by
  rw [chunksOf.eq_def]

theorem chunksOf_cons (n : Nat) (x : α) (xs : List α) :
    chunksOf n (x :: xs) =
      (x :: xs.take (n - 1)) :: chunksOf n (xs.drop (n - 1)) := by
  rw [chunksOf.eq_def]

/- ===================  Theorems  =================== -/

/-- C10: every `CommonResult` produced by the two constructors satisfies:
`success(data)` has `req_result = true` and an empty `err_message`, and
`failed(msg)` has `req_result = false`, `data = None`, and `err_message`
equal to `msg`; hence `req_result = false` implies `data` is absent. -/
theorem commonResult_constructor_invariants (T : Type) (d : Option T) (m : String) :
    ((CommonResult.success d).req_result = true ∧
      (CommonResult.success d).err_message = "") ∧
    ((CommonResult.failed (T := T) m).req_result = false ∧
      (CommonResult.failed (T := T) m).data = none ∧
      (CommonResult.failed (T := T) m).err_message = m) ∧
    (∀ r : CommonResult T, r.fromConstructor → r.req_result = false →
      r.data = none) := by
  refine ⟨⟨rfl, rfl⟩, ⟨rfl, rfl, rfl⟩, ?_⟩
  rintro r (⟨d, rfl⟩ | ⟨m, rfl⟩) hfalse
  · simp [CommonResult.success] at hfalse
  · rfl

/-- Witness for `commonResult_constructor_invariants` at `T = Nat`,
`d = some 7`, `m = "boom"`. -/
theorem commonResult_constructor_invariants_witness :
    ((CommonResult.success (some 7)).req_result = true ∧
      (CommonResult.success (some 7)).err_message = "") ∧
    ((CommonResult.failed (T := Nat) "boom").req_result = false ∧
      (CommonResult.failed (T := Nat) "boom").data = none ∧
      (CommonResult.failed (T := Nat) "boom").err_message = "boom") ∧
    (∀ r : CommonResult Nat, r.fromConstructor → r.req_result = false →
      r.data = none) :=
  commonResult_constructor_invariants Nat (some 7) "boom"

/-- C4 (code bug evaluated at the failing input): with a database engine
whose insert of the single chunk `[0]` fails with a `DbErr`,
`batch_save_model` (and hence `batch_save_model_with_conflict`) still
returns `Ok(())`: the collected `join_all` outcomes are discarded, so the
insert failure is never surfaced to the caller as a `MegaError`. -/
theorem batch_save_model_swallows_insert_error :
    (chunksOf 1000 [0]).map (failingExec OnConflict.doNothing) =
      [Except.error { msg := "insert failed" }] ∧
    batch_save_model failingExec [0] = Except.ok () := by
  constructor
  · rw [chunksOf_cons, List.take_nil, List.drop_nil, chunksOf_nil]
    rfl
  · rfl

/-- C7 counterexample: when `Request::new` fails (line 98 of
`saturn/src/context.rs`), `is_authorized` returns `Err(Error::Request(..))`
even though the policy engine never produced a `Deny` decision (here the
authorizer allows everything); so "returns an error if and only if the
decision is Deny" is false as stated. -/
theorem is_authorized_error_without_deny :
    is_authorized (Except.error "bad entity uid") allowAllAuthorizer =
      Except.error (AuthError.Request "bad entity uid") ∧
    (allowAllAuthorizer sampleRequest).decision = Decision.Allow := by
  constructor
  · rfl
  · rfl

/-- C7 as amended: once the authorization request is successfully
constructed, `is_authorized` returns `Ok(())` iff the decision is Allow,
and returns the `AuthDenied` error carrying the decision diagnostics iff
the decision is Deny; a request-construction failure `e` instead returns
`Err(Error::Request(e))` without consulting the engine. -/
theorem is_authorized_deny_iff_error (q : CedarRequest)
    (authorize : CedarRequest → Response) (e : String) :
    (is_authorized (Except.ok q) authorize = Except.ok () ↔
      (authorize q).decision = Decision.Allow) ∧
    (is_authorized (Except.ok q) authorize =
        Except.error (AuthError.AuthDenied (authorize q).diagnostics) ↔
      (authorize q).decision = Decision.Deny) ∧
    is_authorized (Except.error e) authorize =
      Except.error (AuthError.Request e) := by
  refine ⟨?_, ?_, rfl⟩
  · unfold is_authorized
    cases h : (authorize q).decision <;> simp [h]
  · unfold is_authorized
    cases h : (authorize q).decision <;> simp [h]

/-- Witness for `is_authorized_deny_iff_error` at the sample request, the
all-allowing authorizer and a concrete construction error. -/
theorem is_authorized_deny_iff_error_witness :
    (is_authorized (Except.ok sampleRequest) allowAllAuthorizer = Except.ok () ↔
      (allowAllAuthorizer sampleRequest).decision = Decision.Allow) ∧
    (is_authorized (Except.ok sampleRequest) allowAllAuthorizer =
        Except.error
          (AuthError.AuthDenied (allowAllAuthorizer sampleRequest).diagnostics) ↔
      (allowAllAuthorizer sampleRequest).decision = Decision.Deny) ∧
    is_authorized (Except.error "oops") allowAllAuthorizer =
      Except.error (AuthError.Request "oops") :=
  is_authorized_deny_iff_error sampleRequest allowAllAuthorizer "oops"

theorem hasKey_append {M K : Type} [DecidableEq K] (key : M → K)
    (s t : List M) (k : K) (h : hasKey key s k = true) :
    hasKey key (s ++ t) k = true := by
  simp only [hasKey, List.any_append, Bool.or_eq_true]
  exact Or.inl h

theorem insert_many_preserves {M K : Type} [DecidableEq K] (key : M → K)
    (c : List M) (s : List M) (k : K) (h : hasKey key s k = true) :
    hasKey key (insert_many_do_nothing key s c) k = true := by
  induction c generalizing s with
  | nil => exact h
  | cons m rest ih =>
    simp only [insert_many_do_nothing, List.foldl_cons]
    by_cases hm : hasKey key s (key m) = true
    · rw [if_pos hm]
      exact ih s h
    · rw [if_neg hm]
      exact ih (s ++ [m]) (hasKey_append key s [m] k h)

theorem insert_many_adds {M K : Type} [DecidableEq K] (key : M → K)
    (c : List M) (s : List M) (m : M) (hm : m ∈ c) :
    hasKey key (insert_many_do_nothing key s c) (key m) = true := by
  induction c generalizing s with
  | nil => cases hm
  | cons a rest ih =>
    simp only [insert_many_do_nothing, List.foldl_cons]
    rcases List.mem_cons.mp hm with rfl | hmem
    · by_cases ha : hasKey key s (key m) = true
      · rw [if_pos ha]
        exact insert_many_preserves key rest s (key m) ha
      · rw [if_neg ha]
        refine insert_many_preserves key rest (s ++ [m]) (key m) ?_
        simp [hasKey, List.any_append]
    · by_cases ha : hasKey key s (key a) = true
      · rw [if_pos ha]
        exact ih s hmem
      · rw [if_neg ha]
        exact ih (s ++ [a]) hmem

theorem insert_many_id {M K : Type} [DecidableEq K] (key : M → K)
    (c : List M) (s : List M) (h : ∀ m ∈ c, hasKey key s (key m) = true) :
    insert_many_do_nothing key s c = s := by
  induction c with
  | nil => rfl
  | cons m rest ih =>
    simp only [insert_many_do_nothing, List.foldl_cons]
    rw [if_pos (h m (List.mem_cons_self m rest))]
    exact ih (fun x hx => h x (List.mem_cons_of_mem m hx))

theorem chunksOf_flatten (n : Nat) (l : List α) : (chunksOf n l).flatten = l := by
  match l with
  | [] => rw [chunksOf_nil]; rfl
  | x :: xs =>
    rw [chunksOf_cons]
    have ih := chunksOf_flatten n (xs.drop (n - 1))
    simp [ih]
termination_by l.length
decreasing_by
  simp only [List.length_drop, List.length_cons]
  omega

theorem foldl_insert_preserves {M K : Type} [DecidableEq K] (key : M → K)
    (cs : List (List M)) (s : List M) (k : K) (h : hasKey key s k = true) :
    hasKey key (cs.foldl (insert_many_do_nothing key) s) k = true := by
  induction cs generalizing s with
  | nil => exact h
  | cons c rest ih =>
    exact ih (insert_many_do_nothing key s c) (insert_many_preserves key c s k h)

theorem foldl_insert_adds {M K : Type} [DecidableEq K] (key : M → K)
    (cs : List (List M)) (s : List M) (c : List M) (hc : c ∈ cs)
    (m : M) (hm : m ∈ c) :
    hasKey key (cs.foldl (insert_many_do_nothing key) s) (key m) = true := by
  induction cs generalizing s with
  | nil => cases hc
  | cons c0 rest ih =>
    rcases List.mem_cons.mp hc with rfl | hmem
    · exact foldl_insert_preserves key rest (insert_many_do_nothing key s c) (key m)
        (insert_many_adds key c s m hm)
    · exact ih (insert_many_do_nothing key s c0) hmem

theorem batch_save_state_all_present {M K : Type} [DecidableEq K] (key : M → K)
    (store ms : List M) (m : M) (hm : m ∈ ms) :
    hasKey key (batch_save_state key store ms) (key m) = true := by
  have hjoin : m ∈ (chunksOf 1000 ms).flatten := by
    rw [chunksOf_flatten]; exact hm
  obtain ⟨c, hc, hmc⟩ := List.mem_flatten.mp hjoin
  exact foldl_insert_adds key (chunksOf 1000 ms) store c hc m hmc

theorem foldl_insert_id {M K : Type} [DecidableEq K] (key : M → K)
    (cs : List (List M)) (s : List M)
    (h : ∀ c ∈ cs, ∀ m ∈ c, hasKey key s (key m) = true) :
    cs.foldl (insert_many_do_nothing key) s = s := by
  induction cs with
  | nil => rfl
  | cons c rest ih =>
    simp only [List.foldl_cons]
    rw [insert_many_id key c s (h c (List.mem_cons_self c rest))]
    exact ih (fun c2 hc2 m hm => h c2 (List.mem_cons_of_mem c hc2) m hm)

theorem normalizeRemoteUrl_getLast (url : List Char) :
    (normalizeRemoteUrl url).getLast? = some '/' := by
  unfold normalizeRemoteUrl
  split
  · assumption
  · simp

theorem setup_remote_url_value (remote_repo : List Char) (rh : Option Head)
    (rb : List (String × String)) (repo : RepoState) (msgs : List String)
    (hok : setup remote_repo rh { initRepo with remoteBranches := rb } =
      Except.ok (repo, msgs))
    (e : ConfigEntry) (he : e ∈ repo.config)
    (hsect : e.sect = "remote") ( _hkey : e.key = "url") :
    e.value = remote_repo := by
  cases rh with
  | none =>
    simp only [setup, Except.ok.injEq, Prod.mk.injEq] at hok
    obtain ⟨hrepo, -⟩ := hok
    subst hrepo
    simp [config_insert, initRepo] at he
    rcases he with h1 | h2 | h3
    · rw [h1]
    · rw [h2] at hsect; simp at hsect
    · rw [h3] at hsect; simp at hsect
  | some hd =>
    cases hd with
    | Detached oid =>
      simp only [setup, Except.ok.injEq, Prod.mk.injEq] at hok
      obtain ⟨hrepo, -⟩ := hok
      subst hrepo
      simp [initRepo] at he
    | Branch name =>
      simp only [setup] at hok
      cases hfb : find_branch rb name with
      | none => rw [hfb] at hok; simp at hok
      | some commit =>
        rw [hfb] at hok
        simp only [Except.ok.injEq, Prod.mk.injEq] at hok
        obtain ⟨hrepo, -⟩ := hok
        subst hrepo
        simp [config_insert, initRepo] at he
        rcases he with h1 | h2 | h3
        · rw [h1]
        · rw [h2] at hsect; simp at hsect
        · rw [h3] at hsect; simp at hsect

/-- C6: when the destination path already exists and is not an empty
directory, clone fails with the single fatal message before creating or
mutating anything: the pre-existing directory is left untouched, no
`Cloning into` line is printed, and the cleanup guard is never installed
(the check precedes directory creation and guard installation). -/
theorem clone_preexisting_nonempty_untouched (url : List Char) (cf pgp : Bool)
    (body : BodyOutcome) :
    cloneExecute url DestState.nonEmptyDir cf pgp body =
      { dir := FinalDir.untouchedNonEmpty,
        messages :=
          ["fatal: destination path already exists and is not an empty directory."] } :=
  rfl

/-- C1 counterexample: the claim "every clone that creates its directory
and then fails at any later point removes it" is false on the code: with
a fresh destination and a successful `create_dir_all`, an unwind in the
window before `defer!` is installed — `file_name().unwrap()` at
clone.rs:59 on a `..`-terminated destination, or `println!` at
clone.rs:60 on a closed stdout — leaves the created directory in place,
not removed. -/
theorem clone_preguard_panic_leaves_directory :
    (cloneExecute "a/b/..".toList DestState.absent false true
        BodyOutcome.panics).dir = FinalDir.createdNotRemoved ∧
    FinalDir.createdNotRemoved ≠ FinalDir.removed :=
  ⟨rfl, by decide⟩

/-- C1 as amended: once the `defer!` guard is installed (the destination
was not an existing non-empty directory, `create_dir_all` succeeded, and
the repo-name/`println!` statements in between did not unwind), every
failing clone attempt — a panic during init/fetch or during `setup` —
ends with the directory removed by the scoped guard, while a completing
attempt disarms the guard and leaves the directory in place; a panic in
the pre-guard window instead leaves the created directory behind
(`clone_preguard_panic_leaves_directory`). -/
theorem clone_guard_cleanup (url : List Char) (dest : DestState)
    (body : BodyOutcome) (hdest : dest ≠ DestState.nonEmptyDir) :
    (cloneAttemptFails url body = true →
      (cloneExecute url dest false false body).dir = FinalDir.removed) ∧
    (cloneAttemptFails url body = false →
      ∃ repo, (cloneExecute url dest false false body).dir = FinalDir.present repo) := by
  unfold cloneExecute cloneAttemptFails
  rw [if_neg hdest]
  cases body with
  | panics => exact ⟨fun _ => rfl, fun h => by simp at h⟩
  | completes d =>
    cases hs : setup (normalizeRemoteUrl url) d.remoteHead
        { initRepo with remoteBranches := d.remoteBranches } with
    | error e => simp [hs]
    | ok p => simp [hs]

/-- Witness for `clone_guard_cleanup`: a clone into a fresh path whose
body panics fails, and the directory ends up removed. -/
theorem clone_guard_cleanup_witness :
    cloneAttemptFails "u".toList BodyOutcome.panics = true ∧
    (cloneExecute "u".toList DestState.absent false false BodyOutcome.panics).dir =
      FinalDir.removed :=
  ⟨rfl,
    (clone_guard_cleanup "u".toList DestState.absent BodyOutcome.panics
      (by decide)).1 rfl⟩

/-- C2: cloning a remote that advertises zero refs (remote HEAD absent)
succeeds: the directory is kept with a repository that has no branches,
HEAD attached to the default branch name `master` which does not resolve
(unborn), and the empty-repository warning is printed. -/
theorem clone_empty_remote (url : List Char) (rb : List (String × String)) :
    ∃ repo,
      cloneExecute url DestState.absent false false
          (BodyOutcome.completes { remoteHead := none, remoteBranches := rb }) =
        { dir := FinalDir.present repo,
          messages := ["Cloning into",
            "warning: You appear to have cloned an empty repository."] } ∧
      repo.branches = [] ∧
      repo.head = Head.Branch "master" ∧
      headResolves repo = false :=
  ⟨_, rfl, rfl, rfl, rfl⟩

/-- C3: cloning a remote whose HEAD is attached to branch `name` with tip
commit `commit` (the fetched remote-tracking branch resolves to it)
yields a repository whose local branch `name` equals `commit`, HEAD
attached to `name`, and a working tree materialized from that commit. -/
theorem clone_attached_head (url : List Char) (name commit : String)
    (rb : List (String × String)) (h : find_branch rb name = some commit) :
    ∃ repo,
      (cloneExecute url DestState.absent false false
          (BodyOutcome.completes
            { remoteHead := some (Head.Branch name), remoteBranches := rb })).dir =
        FinalDir.present repo ∧
      find_branch repo.branches name = some commit ∧
      repo.head = Head.Branch name ∧
      repo.worktree = some commit := by
  unfold cloneExecute
  simp only [setup, h]
  refine ⟨_, rfl, ?_, rfl, rfl⟩
  simp [find_branch, update_branch, initRepo]

/-- Witness for `clone_attached_head`: cloning a remote with
`heads/main -> C3` gives local `main = C3`, HEAD attached to `main`, and
a working tree from `C3`. -/
theorem clone_attached_head_witness :
    find_branch [("main", "C3")] "main" = some "C3" ∧
    ∃ repo,
      (cloneExecute "http://x/r".toList DestState.absent false false
          (BodyOutcome.completes
            { remoteHead := some (Head.Branch "main"),
              remoteBranches := [("main", "C3")] })).dir =
        FinalDir.present repo ∧
      find_branch repo.branches "main" = some "C3" ∧
      repo.head = Head.Branch "main" ∧
      repo.worktree = some "C3" :=
  ⟨rfl,
    clone_attached_head "http://x/r".toList "main" "C3" [("main", "C3")] rfl⟩

/-- C9: when the remote HEAD is detached, `setup` only prints the fatal
message and returns normally, so clone still disarms the guard: the
directory is kept, and the repository inside is exactly the post-init
state — no local branch, HEAD still at the init default, no config
written, no working tree materialized. -/
theorem clone_detached_head_kept (url : List Char) (oid : String)
    (rb : List (String × String)) :
    cloneExecute url DestState.absent false false
        (BodyOutcome.completes
          { remoteHead := some (Head.Detached oid), remoteBranches := rb }) =
      { dir := FinalDir.present { initRepo with remoteBranches := rb },
        messages := ["Cloning into", "fatal: remote HEAD points to a detached commit"] } ∧
    ({ initRepo with remoteBranches := rb } : RepoState).branches = [] ∧
    ({ initRepo with remoteBranches := rb } : RepoState).head = Head.Branch "master" ∧
    ({ initRepo with remoteBranches := rb } : RepoState).config = [] ∧
    ({ initRepo with remoteBranches := rb } : RepoState).worktree = none :=
  ⟨rfl, rfl, rfl, rfl, rfl⟩

/-- C8: in every clone execution that keeps a repository, the config
entry under `remote.origin.url` holds exactly the normalized remote url
(the user url with a trailing slash pushed when absent), which always
ends with a slash. -/
theorem clone_config_url_normalized (url : List Char) (dest : DestState)
    (cf pgp : Bool) (body : BodyOutcome) (repo : RepoState)
    (hrepo : (cloneExecute url dest cf pgp body).dir = FinalDir.present repo)
    (e : ConfigEntry) (he : e ∈ repo.config)
    (hsect : e.sect = "remote") ( _hsub : e.subsection = some "origin")
    (hkey : e.key = "url") :
    e.value = normalizeRemoteUrl url ∧ e.value.getLast? = some '/' := by
  unfold cloneExecute at hrepo
  by_cases hd : dest = DestState.nonEmptyDir
  · rw [if_pos hd] at hrepo
    exact absurd hrepo (by simp)
  · rw [if_neg hd] at hrepo
    cases cf with
    | true => simp at hrepo
    | false =>
      simp only [Bool.false_eq_true, if_false] at hrepo
      cases pgp with
      | true => simp at hrepo
      | false =>
      simp only [Bool.false_eq_true, if_false] at hrepo
      cases body with
      | panics => simp at hrepo
      | completes d =>
        obtain ⟨rh, rb⟩ := d
        dsimp only at hrepo
        split at hrepo
        · simp at hrepo
        · rename_i repo2 msgs hs
          simp at hrepo
          subst hrepo
          have hval := setup_remote_url_value (normalizeRemoteUrl url) rh
            rb repo2 msgs hs e he hsect hkey
          exact ⟨hval, hval ▸ normalizeRemoteUrl_getLast url⟩

/-- Witness for `clone_config_url_normalized`: cloning `http://x/r`
(no trailing slash) stores `http://x/r/` under `remote.origin.url`. -/
theorem clone_config_url_normalized_witness :
    sampleUrlEntry.value = normalizeRemoteUrl "http://x/r".toList ∧
    sampleUrlEntry.value.getLast? = some '/' :=
  clone_config_url_normalized "http://x/r".toList DestState.absent false false
    (BodyOutcome.completes { remoteHead := none, remoteBranches := [] })
    sampleCloneRepo rfl sampleUrlEntry (List.Mem.head _) rfl rfl rfl

/-- C5: with the `do_nothing` conflict policy, saving the same sequence
of models twice leaves the table in the same state as saving it once
(rows whose key already exists are skipped, not an error), and the
second save still reports success. -/
theorem batch_save_idempotent {M K : Type} [DecidableEq K] (key : M → K)
    (store save_models : List M) :
    batch_save_state key (batch_save_state key store save_models) save_models =
      batch_save_state key store save_models ∧
    (∀ exec : OnConflict → List M → Except DbErr Unit,
      batch_save_model exec save_models = Except.ok ()) := by
  constructor
  · unfold batch_save_state
    apply foldl_insert_id
    intro c hc m hm
    apply batch_save_state_all_present
    rw [← chunksOf_flatten 1000 save_models]
    exact List.mem_flatten.mpr ⟨c, hc, hm⟩
  · intro exec
    rfl
